import Mathlib

/-!
Verification of the mcp-gateway core against its specification.

The Go source is shallowly embedded: each Go function that a claim touches
is translated into an executable Lean definition over explicit state
records.  Go maps are modelled as association lists with overwrite-on-insert
semantics, Go channels and HTTP calls are abstracted to explicit outputs,
and wall-clock times (`time.Now().UnixMilli()`) are passed as parameters.
-/

namespace McpGateway

/-! ## Association-list helpers (Go `map` semantics) -/

/-- Remove every binding for key `k` (Go `delete(m, k)`). -/
def removeA [BEq α] (k : α) (l : List (α × β)) : List (α × β) :=
  l.filter (fun p => !(p.1 == k))

/-- Overwrite-insert (Go `m[k] = v`). -/
def insertA [BEq α] (k : α) (v : β) (l : List (α × β)) : List (α × β) :=
  (k, v) :: removeA k l

theorem lookup_insertA_self [BEq α] [LawfulBEq α] (k : α) (v : β) (l : List (α × β)) :
    List.lookup k (insertA k v l) = some v := by
  simp [insertA, List.lookup]

theorem lookup_removeA_self [BEq α] [LawfulBEq α] (k : α) (l : List (α × β)) :
    List.lookup k (removeA k l) = none := by
  induction l with
  | nil => rfl
  | cons p rest ih =>
    by_cases h : p.1 = k
    · simpa [removeA, h] using ih
    · have hb : (p.1 == k) = false := by simp [h]
      have hb2 : (k == p.1) = false := by
        simp only [beq_eq_false_iff_ne, ne_eq]
        exact fun he => h he.symm
      rw [removeA, List.filter_cons]
      simp only [hb, Bool.not_false, if_pos]
      rw [List.lookup_cons, hb2]
      simpa [removeA] using ih

theorem lookup_removeA_ne [BEq α] [LawfulBEq α] (k k2 : α) (l : List (α × β))
    (h : (k2 == k) = false) :
    List.lookup k2 (removeA k l) = List.lookup k2 l := by
  induction l with
  | nil => rfl
  | cons p rest ih =>
    by_cases hp : p.1 = k
    · have hb : (p.1 == k) = true := by simp [hp]
      have hb2 : (k2 == p.1) = false := hp ▸ h
      rw [removeA, List.filter_cons]
      simp only [hb, Bool.not_true, if_neg, Bool.false_eq_true, not_false_iff]
      rw [List.lookup_cons, hb2]
      simpa [removeA] using ih
    · have hb : (p.1 == k) = false := by simp [hp]
      rw [removeA, List.filter_cons]
      simp only [hb, Bool.not_false, if_pos]
      rw [List.lookup_cons, List.lookup_cons]
      cases hc : (k2 == p.1) with
      | true => rfl
      | false => simpa [removeA] using ih

/-! ## Port allocator (`ServiceManager.GetNextAvailablePort` / `ReleasePort`) -/

/-- State of the port pool: cursor `nextPort` and the set `usedPorts`
(Go `map[int]bool`, modelled as a `Finset`). -/
structure PortState where
  nextPort : Nat
  usedPorts : Finset Nat
deriving DecidableEq

/-- The `for m.usedPorts[m.nextPort] { m.nextPort++ }` scan: first port
`≥ p` that is not in `used`. -/
def firstFree (used : Finset Nat) (p : Nat) : Nat :=
  if h : p ∈ used then firstFree used (p + 1) else p
termination_by (used.filter (fun q => p ≤ q)).card
decreasing_by
  apply Finset.card_lt_card
  constructor
  · intro q hq
    rcases Finset.mem_filter.mp hq with ⟨hq1, hq2⟩
    exact Finset.mem_filter.mpr ⟨hq1, Nat.le_of_succ_le hq2⟩
  · intro hsub
    have hp : p ∈ used.filter (fun q => p ≤ q) :=
      Finset.mem_filter.mpr ⟨h, Nat.le_refl p⟩
    have := Finset.mem_filter.mp (hsub hp)
    omega

/-- Model of `GetNextAvailablePort`: scan from the cursor, mark the port used,
advance the cursor past it. -/
def getNextAvailablePort (st : PortState) : PortState × Nat :=
  let port := firstFree st.usedPorts st.nextPort
  ({ nextPort := port + 1, usedPorts := insert port st.usedPorts }, port)

/-- Model of `ReleasePort`: remove from `usedPorts`; the cursor is untouched. -/
def releasePort (st : PortState) (p : Nat) : PortState :=
  { st with usedPorts := st.usedPorts.erase p }

/-- Initial pool from `NewServiceManager`: `nextPort: 10000`, no used ports. -/
def initPortState : PortState := { nextPort := 10000, usedPorts := ∅ }

inductive PortOp where
  | alloc
  | release (p : Nat)

def applyPortOp (st : PortState) : PortOp → PortState
  | .alloc => (getNextAvailablePort st).1
  | .release p => releasePort st p

def runPortOps (st : PortState) : List PortOp → PortState
  | [] => st
  | op :: ops => runPortOps (applyPortOp st op) ops

theorem firstFree_spec (used : Finset Nat) (p : Nat) :
    p ≤ firstFree used p ∧ firstFree used p ∉ used ∧
      ∀ q, p ≤ q → q < firstFree used p → q ∈ used := by
  rw [firstFree]
  by_cases h : p ∈ used
  · rw [dif_pos h]
    obtain ⟨ih1, ih2, ih3⟩ := firstFree_spec used (p + 1)
    refine ⟨by omega, ih2, ?_⟩
    intro q hpq hlt
    rcases Nat.eq_or_lt_of_le hpq with heq | hlt2
    · exact heq ▸ h
    · exact ih3 q hlt2 hlt
  · rw [dif_neg h]
    exact ⟨Nat.le_refl p, h, by omega⟩
termination_by (used.filter (fun q => p ≤ q)).card
decreasing_by
  apply Finset.card_lt_card
  constructor
  · intro q hq
    rcases Finset.mem_filter.mp hq with ⟨hq1, hq2⟩
    exact Finset.mem_filter.mpr ⟨hq1, Nat.le_of_succ_le hq2⟩
  · intro hsub
    have hp : p ∈ used.filter (fun q => p ≤ q) :=
      Finset.mem_filter.mpr ⟨h, Nat.le_refl p⟩
    have := Finset.mem_filter.mp (hsub hp)
    omega

/-- Invariant of the pool: the cursor is ≥ 10000 and every used port is
strictly below the cursor (hence `usedPorts` never contains `nextPort`). -/
def PortInv (st : PortState) : Prop :=
  10000 ≤ st.nextPort ∧ ∀ q ∈ st.usedPorts, q < st.nextPort

theorem portInv_init : PortInv initPortState := by
  constructor
  · exact Nat.le_refl _
  · intro q hq
    simp [initPortState] at hq

theorem portInv_apply (st : PortState) (op : PortOp) (h : PortInv st) :
    PortInv (applyPortOp st op) := by
  rcases h with ⟨h1, h2⟩
  cases op with
  | alloc =>
    have hge := (firstFree_spec st.usedPorts st.nextPort).1
    constructor
    · simp only [applyPortOp, getNextAvailablePort]
      omega
    · intro q hq
      simp only [applyPortOp, getNextAvailablePort] at hq ⊢
      rcases Finset.mem_insert.mp hq with rfl | hmem
      · omega
      · have := h2 q hmem
        omega
  | release p =>
    constructor
    · exact h1
    · intro q hq
      simp only [applyPortOp, releasePort] at hq
      exact h2 q (Finset.mem_of_mem_erase hq)

theorem portInv_run (st : PortState) (ops : List PortOp) (h : PortInv st) :
    PortInv (runPortOps st ops) := by
  induction ops generalizing st with
  | nil => exact h
  | cons op ops ih => exact ih _ (portInv_apply st op h)

/-! ## Session data model (`service/session.go`)

`types.McpTool`, `types.McpRequest` and `types.CreateMcpResult` live in the
`types` package, which is not part of the analysed tree; they are modelled
from the spec.  A `data:` payload is modelled as the record of the fields the
session code inspects (`id`, `jsonrpc`, `result.tools`,
`result.serverInfo.name`); the one-shot textual substring rewrites of the
source act on exactly these fields for payloads in the canonical
serialization. -/

/-- Modelled from the spec: `types.McpTool` (§3 Tool), with `realName` the
own tool name of the backend and `name` the exposed, prefixed form. -/
structure McpTool where
  Name : String
  RealName : String
deriving DecidableEq, Repr

/-- Modelled from the spec: `types.McpRequest` with the fields the session
inspects: `id`, `method`, and `params.name` (`paramsName = none` models a
request whose params carry no string-valued `name`). -/
structure McpRequest where
  id : Option Int
  method : String
  paramsName : Option String
deriving DecidableEq, Repr

/-- A backend `data:` payload, reduced to the fields the session reads and
rewrites. -/
structure McpData where
  id : Option Int
  jsonrpc : String
  tools : List McpTool
  serverInfo : Option String
deriving DecidableEq, Repr

/-- The per-session mutable state touched by the claims: `messageIds`
(gateway id → original client id), `mcpToolsMap` (backend → its prefixed
tools), `waitToolsCount` and `mcpMessageUrl` (backend → message URL). -/
structure SessionSt where
  messageIds : List (Int × Int)
  mcpToolsMap : List (String × List McpTool)
  waitToolsCount : Int
  mcpMessageUrl : List (String × String)
deriving DecidableEq, Repr

/-- Model of `NewSession`: all maps empty, counter zero.  (The `doneChan` field of the
Go struct is left nil by `NewSession`; see the session-manager section.) -/
def newSessionSt : SessionSt :=
  { messageIds := [], mcpToolsMap := [], waitToolsCount := 0, mcpMessageUrl := [] }

/-- Model of `Session.generateMessageId`: the gateway id is the current epoch-millis
`now`; `messageIds[now] = realMessageId` overwrites any existing binding.
There is no collision check in the source. -/
def generateMessageId (now : Int) (realMessageId : Int) (st : SessionSt) :
    SessionSt × Int :=
  ({ st with messageIds := insertA now realMessageId st.messageIds }, now)

/-- Model of `Session.sendToMcp`, with the HTTP POST abstracted to its success path:
rewrite a non-null id to a fresh gateway id, then look up the message URL
of the backend (error when absent).  Returns the new state and the request as
POSTed. -/
def sendToMcp (now : Int) (mcpName : String) (request : McpRequest)
    (st : SessionSt) : Except String (SessionSt × McpRequest) :=
  let step :=
    match request.id with
    | some rid =>
      let (st2, g) := generateMessageId now rid st
      (st2, { request with id := some g })
    | none => (st, request)
  match List.lookup mcpName step.1.mcpMessageUrl with
  | none => .error ("failed to find mcpMessageUrl for " ++ mcpName)
  | some _ => .ok step

/-- Go `strings.Split` for a one-character separator, on the character
list of the string (kernel-computable, unlike `String.splitOn`). -/
def splitOnChar (c : Char) : List Char → List (List Char)
  | [] => [[]]
  | x :: xs =>
    match splitOnChar c xs with
    | [] => if x == c then [[], []] else [[x]]
    | h :: t => if x == c then [] :: h :: t else (x :: h) :: t

/-- Go `strings.Join` for a one-character separator. -/
def joinChar (c : Char) : List (List Char) → List Char
  | [] => []
  | [x] => x
  | x :: xs => x ++ c :: joinChar c xs

/-- Lift of `strings.Split(s, "_")` to strings. -/
def goSplit (sep : Char) (s : String) : List String :=
  (splitOnChar sep s.toList).map fun l => String.mk l

/-- Lift of `strings.Join(l, "_")` to strings. -/
def goJoin (sep : Char) (l : List String) : String :=
  String.mk (joinChar sep (l.map String.toList))

/-- The routing head of `Session.SendMessage` (lines 176-193): for
`tools/call`, a missing string `params.name` is an error; a `params.name`
containing an underscore is split on the first underscore, the head
becoming `singleMcp` and the joined tail the new `params.name`.  Every
other request leaves `singleMcp` empty. -/
def routeOf (request : McpRequest) : Except String (String × McpRequest) :=
  if request.method == "tools/call" then
    match request.paramsName with
    | none => .error "failed to get name"
    | some name =>
      match goSplit '_' name with
      | n0 :: n1 :: rest =>
        .ok (n0, { request with paramsName := some (goJoin '_' (n1 :: rest)) })
      | _ => .ok ("", request)
  else .ok ("", request)

/-- One broadcast step of `SendMessage`: send to one backend, skipping (not
failing) on error, and bump `waitToolsCount` when the method is
`tools/list` and the send succeeded. -/
def broadcastStep (now : Int) (method : String) (request : McpRequest)
    (acc : SessionSt × List (String × McpRequest)) (entry : String × String) :
    SessionSt × List (String × McpRequest) :=
  match sendToMcp now entry.1 request acc.1 with
  | .error _ => acc
  | .ok (st2, req2) =>
    let st3 :=
      if method == "tools/list" then
        { st2 with waitToolsCount := st2.waitToolsCount + 1 }
      else st2
    (st3, acc.2 ++ [(entry.1, req2)])

/-- Model of `Session.SendMessage` (lines 152-219), with JSON parsing and the
readiness poll abstracted: route the request, then either broadcast to
every backend in `mcpMessageUrl` (per-backend errors skipped) or send to
the single named backend (its error propagates).  All sends within one call
share the same epoch-millis `now`.  Returns the state and the list of
(backend, request-as-POSTed) pairs. -/
def sessionSendMessage (now : Int) (request0 : McpRequest) (st : SessionSt) :
    Except String (SessionSt × List (String × McpRequest)) :=
  match routeOf request0 with
  | .error e => .error e
  | .ok (singleMcp, request) =>
    if singleMcp == "" then
      .ok (st.mcpMessageUrl.foldl (broadcastStep now request0.method request) (st, []))
    else
      match sendToMcp now singleMcp request st with
      | .error e => .error e
      | .ok (st2, req2) => .ok (st2, [(singleMcp, req2)])

/-- Rule `tool.RealName = tool.Name; tool.Name = "<mcpName>_<name>"` applied to
every entry of `result.tools` (lines 391-400). -/
def toolsFor (mcpName : String) (ts : List McpTool) : List McpTool :=
  ts.map fun t => { Name := mcpName ++ "_" ++ t.Name, RealName := t.Name }

/-- The `data:` branch of `SubscribeSSE` for payloads carrying an `id`
(lines 373-431), run by the reader of backend `mcpName` for an SSE frame of
kind `currentEvent`.  Returns the new session state together with the list
of events passed to `SendEvent` (the outbound channel).  Mirrors the
control flow of the source, including the early `return` inside the tools
closure, which leaves the (id-rewritten) payload to be forwarded by the
code after the closure. -/
def subscribeSSEHandleData (mcpName : String) (currentEvent : String)
    (data0 : McpData) (st : SessionSt) : SessionSt × List (String × McpData) :=
  match data0.id with
  | none => (st, [])
  | some messageId =>
    match List.lookup messageId st.messageIds with
    | none => (st, [])
    | some realMessage =>
      let st1 := { st with messageIds := removeA messageId st.messageIds }
      let data1 := { data0 with id := some realMessage }
      let next :=
        if data1.tools.length > 0 then
          let st2 := { st1 with
            mcpToolsMap := insertA mcpName (toolsFor mcpName data1.tools) st1.mcpToolsMap,
            waitToolsCount := st1.waitToolsCount - 1 }
          if st2.waitToolsCount > 0 then
            (st2, data1)
          else
            let allTools := (st2.mcpToolsMap.map (fun e => e.2)).flatten
            (st2, { id := some realMessage, jsonrpc := data1.jsonrpc,
                    tools := allTools, serverInfo := none })
        else if data1.serverInfo.isSome then
          (st1, { data1 with serverInfo := some "mcp-gateway" })
        else
          (st1, data1)
      if currentEvent ≠ "endpoint" then (next.1, [(currentEvent, next.2)])
      else (next.1, [])

/-- The `endpoint` branch of the reader (lines 368-371): record the message
URL composed from the scheme://host of the response and the announced path, only
while no URL is recorded for this backend (a missing Go map entry reads as
the empty string). -/
def storeEndpoint (mcpName : String) (schemeHost : String) (path : String)
    (st : SessionSt) : SessionSt :=
  if (List.lookup mcpName st.mcpMessageUrl).getD "" == "" then
    { st with mcpMessageUrl := insertA mcpName (schemeHost ++ path) st.mcpMessageUrl }
  else st

/-! ## Backend supervisor (`service/service.go`)

Process handles, log files and stop channels are modelled by presence
booleans; killing, file closing and channel closing are resource effects
with no field of their own.  Note that `Stop` nils out `Cmd` and
`StopSignal` but only closes (never nils) `LogFile`. -/

/-- The fields of `McpService` the claims touch.  `cmdPresent`,
`logFilePresent`, `stopSignalPresent` model the nil-ness of `Cmd`,
`LogFile`, `StopSignal`. -/
structure McpService where
  name : String
  cfgCommand : String
  cfgURL : String
  cmdPresent : Bool
  logFilePresent : Bool
  stopSignalPresent : Bool
  port : Nat
  status : String
  retryCount : Int
deriving DecidableEq, Repr

/-- Model of `NewMcpService`: status `stopped`, no port, and `RetryCount`
initialised to the configured maximum
(`cfg.McpServiceMgrConfig.GetMcpServiceRetryCount()`). -/
def newMcpService (name command url : String) (maxRetry : Int) : McpService :=
  { name := name, cfgCommand := command, cfgURL := url,
    cmdPresent := false, logFilePresent := false, stopSignalPresent := false,
    port := 0, status := "stopped", retryCount := maxRetry }

/-- Model of `McpService.IsSSE`: true when the config has a URL and no command — and,
as a side effect of the query, sets `Status` to `running` in that case. -/
def isSSE (s : McpService) : McpService × Bool :=
  if s.cfgCommand == "" && s.cfgURL != "" then
    ({ s with status := "running" }, true)
  else (s, false)

/-- Model of `McpService.Stop` (lines 69-97).  Returns the new state and the port
handed to `portMgr.releasePort`, if any.  Early exits: URL-only backend
(after `IsSSE` has set its status to `running`), status not `running`, or
nil `Cmd` — each leaves the rest of the state untouched. -/
def serviceStop (s : McpService) : McpService × Option Nat :=
  let q := isSSE s
  if q.2 then (q.1, none)
  else if q.1.status != "running" then (q.1, none)
  else if !q.1.cmdPresent then (q.1, none)
  else
    ({ q.1 with stopSignalPresent := false, cmdPresent := false,
                port := 0, status := "stopped" },
     if q.1.port != 0 then some q.1.port else none)

/-- Model of `McpService.Start` (lines 100-154), success path (log-file creation and
process spawn succeed); `freshPort` is what `portMgr.getNextAvailablePort`
would return.  The two error exits (URL-only, already running) return the
state unchanged apart from the `IsSSE` side effect. -/
def serviceStart (s : McpService) (freshPort : Nat) : McpService :=
  let q := isSSE s
  if q.2 then q.1
  else if q.1.status == "running" then q.1
  else
    let s1 := { q.1 with status := "starting" }
    let s2 := if s1.port == 0 then { s1 with port := freshPort } else s1
    { s2 with logFilePresent := true, cmdPresent := true,
              stopSignalPresent := true, status := "running" }

/-- The exit-with-error branch of `McpService.monitorProcess`
(lines 182-192), taken when `Cmd.Wait` returns an error and `StopSignal`
has not been closed: if `RetryCount` already exceeds the configured
maximum, call `Stop` and terminate the monitor (`Bool` result `true`);
otherwise increment `RetryCount` and do `Stop` then `Start`. -/
def monitorOnExit (s : McpService) (maxRetry : Int) (freshPort : Nat) :
    McpService × Bool :=
  if s.retryCount > maxRetry then
    ((serviceStop s).1, true)
  else
    let s1 := { s with retryCount := s.retryCount + 1 }
    let s2 := (serviceStop s1).1
    (serviceStart s2 freshPort, false)

/-! ## Session manager (`CloseProxySession`, `loopGC`, `Close`)

The lifecycle state of a proxy session: `doneClosed` models whether the
`doneChan` of the Go session has been closed (it is nil from `NewSession`
and no code path closes it), `sseConnsClosed` whether `Session.Close` has
closed the recorded SSE responses. -/

structure SessLife where
  lastReceiveTime : Int
  doneClosed : Bool
  sseConnsClosed : Bool
deriving DecidableEq, Repr

/-- Model of `NewSession`: it leaves `doneChan` nil (never closed) and the SSE
connections open. -/
def newSessLife (t : Int) : SessLife :=
  { lastReceiveTime := t, doneClosed := false, sseConnsClosed := false }

/-- Model of `Session.Close` (session.go lines 444-459): closes every recorded SSE
connection and waits for the readers.  It does not touch `doneChan`. -/
def sessionClose (s : SessLife) : SessLife :=
  { s with sseConnsClosed := true }

/-- The manager state the claims touch: the `proxySessions` map. -/
structure MgrSt where
  proxySessions : List (String × SessLife)
deriving DecidableEq, Repr

/-- Model of `ServiceManager.CloseProxySession`: when the id is present, call
`Session.Close` and delete the entry.  Returns the manager and the closed
session as it was at removal time. -/
def closeProxySession (m : MgrSt) (id : String) : MgrSt × Option SessLife :=
  match List.lookup id m.proxySessions with
  | some s =>
    ({ proxySessions := removeA id m.proxySessions }, some (sessionClose s))
  | none => (m, none)

/-- One `loopGC` tick (part_001 lines 258-279): every session whose
`lastReceiveTime` is older than the timeout is closed and removed.  (The
nil-session cleanup branch is unrepresentable here: the map holds session
values, not pointers.)  Returns the manager and the sessions as they were
at removal time. -/
def mgrGCStep (now timeout : Int) (m : MgrSt) : MgrSt × List (String × SessLife) :=
  ({ proxySessions :=
      m.proxySessions.filter (fun e => !(now - e.2.lastReceiveTime > timeout : Bool)) },
   (m.proxySessions.filter (fun e => (now - e.2.lastReceiveTime > timeout : Bool))).map
      (fun e => (e.1, sessionClose e.2)))

/-- Model of `ServiceManager.Close` (part_001 lines 283-305), restricted to the
session half: close and drop every proxy session. -/
def mgrClose (m : MgrSt) : MgrSt × List (String × SessLife) :=
  ({ proxySessions := [] },
   m.proxySessions.map (fun e => (e.1, sessionClose e.2)))

/-! ## HTTP handler (`router/message.go handleGlobalMessage`) -/

/-- Outcome of `handleGlobalMessage`: the session message records appended
(`AddMessage(name, body, "send")`) and the bodies POSTed to each backend
(`instance.SendMessage(body)`; send errors are logged and skipped, so the
POST attempts are unconditional). -/
inductive HandlerResult where
  | badRequest (msg : String)
  | notFound (msg : String)
  | ok (records : List (String × String × String)) (posts : List (String × String))
deriving DecidableEq, Repr

/-- Model of `handleGlobalMessage` (message.go lines 14-46): look up the session by
`sessionId`, then forward the raw request body to every registered MCP
service.  `mcpServices` is the registry snapshot
(`m.mcpServiceMgr.GetMcpServices`). -/
def handleGlobalMessage (sessionId : String) (sessions : List (String × Unit))
    (mcpServices : List String) (body : String) : HandlerResult :=
  if sessionId == "" then .badRequest "missing sessionId"
  else
    match List.lookup sessionId sessions with
    | none => .notFound "session not found"
    | some _ =>
      .ok (mcpServices.map fun n => (n, body, "send"))
          (mcpServices.map fun n => (n, body))

/-! ## Claim C9 — port allocator contract -/

/-- Claim C9: along every sequence of allocator operations from the initial
state, `usedPorts` never contains `nextPort`; an allocation returns the
smallest free port at or above the cursor, marks it used and advances the
cursor past it; a release removes the port without rewinding the cursor;
the returned port is never one that is simultaneously allocated, and every
allocated port is at least 10000. -/
theorem C9_port_allocator_contract (ops : List PortOp) :
    let st := runPortOps initPortState ops
    let alloc := getNextAvailablePort st
    st.nextPort ∉ st.usedPorts ∧
    alloc.2 ∉ st.usedPorts ∧
    st.nextPort ≤ alloc.2 ∧
    (∀ q, st.nextPort ≤ q → q < alloc.2 → q ∈ st.usedPorts) ∧
    alloc.1.usedPorts = insert alloc.2 st.usedPorts ∧
    alloc.1.nextPort = alloc.2 + 1 ∧
    10000 ≤ alloc.2 ∧
    (∀ p, (releasePort st p).nextPort = st.nextPort ∧
          (releasePort st p).usedPorts = st.usedPorts.erase p) := by
  intro st alloc
  obtain ⟨hlo, hbound⟩ := portInv_run initPortState ops portInv_init
  have hlo2 : 10000 ≤ st.nextPort := hlo
  obtain ⟨hge, hnm, hmin⟩ := firstFree_spec st.usedPorts st.nextPort
  have ha : alloc.2 = firstFree st.usedPorts st.nextPort := rfl
  refine ⟨?_, hnm, hge, hmin, rfl, rfl, by omega, fun p => ⟨rfl, rfl⟩⟩
  intro hmem
  have := hbound _ hmem
  have hb2 : st.nextPort < st.nextPort := this
  omega

/-! ## Claim C7 — gateway-id generation silently collides -/

/-- Claim C7 (code bug): `generateMessageId` performs no collision check.
Two requests (original ids 1 and 2) arriving within the same
epoch-millisecond both receive the gateway id `now`, and the second
silently overwrites the `messageIds` entry of the first, contrary to the
claimed advance-by-one collision handling. -/
theorem C7_generateMessageId_collision_overwrites :
    let r1 : SessionSt × Int := generateMessageId 1700000000000 1 newSessionSt
    let r2 : SessionSt × Int := generateMessageId 1700000000000 2 r1.1
    r1.2 = r2.2 ∧
    List.lookup 1700000000000 r2.1.messageIds = some 2 ∧
    r2.1.messageIds = [(1700000000000, 2)] := by
  exact ⟨rfl, rfl, rfl⟩

/-! ## Claim C8 — Stop on URL-only backends and idempotence -/

/-- Claim C8 as stated is false: for a freshly constructed URL-only backend
(status `stopped`), `Stop` does not leave every field unchanged — the
`IsSSE` query inside it flips `Status` to `running`. -/
theorem C8_counterexample_stop_mutates_url_only :
    let svc := newMcpService "r" "" "http://u" 3
    (serviceStop svc).1.status = "running" ∧ svc.status = "stopped" ∧
    (serviceStop svc).1 ≠ svc := by
  refine ⟨rfl, rfl, ?_⟩
  intro h
  have : (serviceStop (newMcpService "r" "" "http://u" 3)).1.status =
      (newMcpService "r" "" "http://u" 3).status := by rw [h]
  simp [serviceStop, isSSE, newMcpService] at this

/-- Claim C8 amended: for a URL-only backend, `Stop` releases no port and
changes no field except `Status`, which it sets to `running`; and for any
backend, a second `Stop` leaves the state after the first `Stop` unchanged
and releases nothing. -/
theorem C8_stop_urlOnly_and_idempotent (s : McpService) :
    (s.cfgCommand = "" → s.cfgURL ≠ "" →
      serviceStop s = ({ s with status := "running" }, none)) ∧
    serviceStop (serviceStop s).1 = ((serviceStop s).1, none) := by
  constructor
  · intro hc hu
    have hcb : (s.cfgCommand == "") = true := by simp [hc]
    have hub : (s.cfgURL != "") = true := by simp [hu]
    simp [serviceStop, isSSE, hcb, hub]
  · by_cases hsse : (s.cfgCommand == "" && s.cfgURL != "") = true
    · simp [serviceStop, isSSE, hsse]
    · by_cases hrun : s.status = "running"
      · by_cases hcmd : s.cmdPresent = true
        · simp [serviceStop, isSSE, hsse, hrun, hcmd]
        · have hcf : s.cmdPresent = false := by
            cases h : s.cmdPresent
            · rfl
            · exact absurd h hcmd
          simp [serviceStop, isSSE, hsse, hrun, hcf]
      · have hb : (s.status != "running") = true := by simp [hrun]
        simp [serviceStop, isSSE, hsse, hb]

/-- Witness for C8: the amended statement at a concrete URL-only backend. -/
theorem C8_stop_urlOnly_and_idempotent_witness :
    serviceStop (newMcpService "r" "" "http://u" 3) =
      ({ newMcpService "r" "" "http://u" 3 with status := "running" }, none) ∧
    serviceStop (serviceStop (newMcpService "r" "" "http://u" 3)).1 =
      ((serviceStop (newMcpService "r" "" "http://u" 3)).1, none) := by
  obtain ⟨h1, h2⟩ := C8_stop_urlOnly_and_idempotent (newMcpService "r" "" "http://u" 3)
  exact ⟨h1 rfl (by decide), h2⟩

/-! ## Claim C6 — supervision give-up -/

/-- Claim C6 as stated is false on two counts.  At a concrete running
command backend with `retryCount` 4 and maximum 3, the give-up path sets
status `stopped` — the string `failed` is never assigned anywhere in
`service.go` — and with `retryCount` equal to the maximum (which the claim,
incrementing before comparing, would treat as exceeding) the monitor still
performs a restart instead of giving up. -/
theorem C6_counterexample_giveup_status :
    let svc : McpService :=
      { name := "a", cfgCommand := "run", cfgURL := "", cmdPresent := true,
        logFilePresent := true, stopSignalPresent := true, port := 10005,
        status := "running", retryCount := 4 }
    (monitorOnExit svc 3 0).1.status = "stopped" ∧
    (monitorOnExit svc 3 0).1.status ≠ "failed" ∧
    (monitorOnExit svc 3 0).2 = true ∧
    (monitorOnExit { svc with retryCount := 3 } 3 10007).2 = false := by
  exact ⟨rfl, by decide, rfl, rfl⟩

/-- Claim C6 amended: when the monitored child exits with an error and
`stopSignal` was not closed, the supervisor first compares `retryCount`
against the configured maximum: if it already exceeds it, the monitor
calls `Stop` — which, for a running command-backed service with a live
process, sets status `stopped` (not `failed`) and releases its port — and
terminates; otherwise it increments `retryCount` and performs a
stop-then-start cycle. -/
theorem C6_monitor_give_up (s : McpService) (maxRetry : Int) (freshPort : Nat)
    (hcmd : s.cfgCommand ≠ "") (hrun : s.status = "running")
    (hproc : s.cmdPresent = true) :
    (s.retryCount > maxRetry →
      monitorOnExit s maxRetry freshPort = ((serviceStop s).1, true) ∧
      (serviceStop s).1.status = "stopped" ∧
      (serviceStop s).2 = (if s.port ≠ 0 then some s.port else none)) ∧
    (¬ s.retryCount > maxRetry →
      monitorOnExit s maxRetry freshPort =
        (serviceStart (serviceStop { s with retryCount := s.retryCount + 1 }).1
          freshPort, false)) := by
  have hsse : (s.cfgCommand == "" && s.cfgURL != "") = false := by
    simp [hcmd]
  have hstop : serviceStop s =
      ({ s with stopSignalPresent := false, cmdPresent := false,
                port := 0, status := "stopped" },
       if s.port != 0 then some s.port else none) := by
    simp [serviceStop, isSSE, hsse, hrun, hproc]
  constructor
  · intro hgt
    refine ⟨?_, ?_, ?_⟩
    · simp [monitorOnExit, hgt]
    · rw [hstop]
    · rw [hstop]
      by_cases hp : s.port = 0
      · simp [hp]
      · simp [hp]
  · intro hle
    simp [monitorOnExit, hle]

/-- Witness for C6: the amended statement at a concrete backend, in both
the give-up and the retry branch. -/
theorem C6_monitor_give_up_witness :
    let svc : McpService :=
      { name := "a", cfgCommand := "run", cfgURL := "", cmdPresent := true,
        logFilePresent := true, stopSignalPresent := true, port := 10005,
        status := "running", retryCount := 4 }
    (monitorOnExit svc 3 0 = ((serviceStop svc).1, true) ∧
      (serviceStop svc).1.status = "stopped" ∧
      (serviceStop svc).2 = (if svc.port ≠ 0 then some svc.port else none)) ∧
    monitorOnExit { svc with retryCount := 3 } 3 10007 =
      (serviceStart
        (serviceStop { svc with retryCount := 3 + 1 }).1 10007, false) := by
  intro svc
  refine ⟨(C6_monitor_give_up svc 3 0 (by decide) rfl rfl).1 (by decide), ?_⟩
  exact (C6_monitor_give_up { svc with retryCount := 3 } 3 10007
    (by decide) rfl rfl).2 (by decide)

/-! ## Claim C5 — sessions removed from the map and the done channel -/

/-- Claim C5 as stated is false: `CloseProxySession` removes the session
from the map after `Session.Close`, but nothing closes the done
channel of the session (`NewSession` never even initialises `doneChan`), so the done channel
of the removed session is not closed at removal time. -/
theorem C5_counterexample_done_never_closed :
    let m : MgrSt := { proxySessions := [("s", newSessLife 0)] }
    (closeProxySession m "s").1.proxySessions = [] ∧
    (closeProxySession m "s").2 = some (sessionClose (newSessLife 0)) ∧
    ((closeProxySession m "s").2.map SessLife.doneClosed) = some false ∧
    ((closeProxySession m "s").2.map SessLife.doneClosed) ≠ some true := by
  exact ⟨rfl, rfl, rfl, by decide⟩

/-- Claim C5 amended: every session removed from `proxySessions` — by
`CloseProxySession`, by a GC tick, or by the `Close` of the manager — has had
`Session.Close` applied at removal time, which closes its SSE connections
but leaves the done channel exactly as it was (never closed, since no code
path closes `doneChan`). -/
theorem mem_of_lookup [BEq α] [LawfulBEq α] {k : α} {l : List (α × β)} {v : β}
    (h : List.lookup k l = some v) : (k, v) ∈ l := by
  induction l with
  | nil => exact absurd h (by simp)
  | cons p rest ih =>
    obtain ⟨a, b⟩ := p
    rw [List.lookup_cons] at h
    cases hk : (k == a) with
    | true =>
      rw [hk] at h
      have hk2 : k = a := by simpa using hk
      have hv : b = v := by simpa using h
      rw [hk2, ← hv]
      exact List.mem_cons_self (a, b) rest
    | false =>
      rw [hk] at h
      exact List.mem_cons_of_mem (a, b) (ih h)

theorem C5_removal_runs_close_not_done (m : MgrSt) (id : String)
    (s : SessLife) (now timeout : Int)
    (hall : ∀ e ∈ m.proxySessions, e.2.doneClosed = false)
    (h : List.lookup id m.proxySessions = some s) :
    closeProxySession m id =
      ({ proxySessions := removeA id m.proxySessions }, some (sessionClose s)) ∧
    (sessionClose s).sseConnsClosed = true ∧
    (sessionClose s).doneClosed = false ∧
    (∀ e ∈ (mgrGCStep now timeout m).2,
      e.2.sseConnsClosed = true ∧ e.2.doneClosed = false) ∧
    (∀ e ∈ (mgrClose m).2,
      e.2.sseConnsClosed = true ∧ e.2.doneClosed = false) ∧
    (mgrClose m).1.proxySessions = [] := by
  have hs : s.doneClosed = false := hall (id, s) (mem_of_lookup h)
  refine ⟨?_, rfl, ?_, ?_, ?_, rfl⟩
  · simp [closeProxySession, h]
  · simpa [sessionClose] using hs
  · intro e he
    simp only [mgrGCStep, List.mem_map] at he
    obtain ⟨e0, he0, rfl⟩ := he
    have := hall e0 (List.mem_of_mem_filter he0)
    exact ⟨rfl, by simpa [sessionClose] using this⟩
  · intro e he
    simp only [mgrClose, List.mem_map] at he
    obtain ⟨e0, he0, rfl⟩ := he
    have := hall e0 he0
    exact ⟨rfl, by simpa [sessionClose] using this⟩

/-- Witness for the amended statement of C5: a one-session manager. -/
theorem C5_removal_runs_close_not_done_witness :
    let m : MgrSt := { proxySessions := [("s", newSessLife 0)] }
    closeProxySession m "s" =
      ({ proxySessions := removeA "s" m.proxySessions },
       some (sessionClose (newSessLife 0))) ∧
    (sessionClose (newSessLife 0)).sseConnsClosed = true ∧
    (sessionClose (newSessLife 0)).doneClosed = false ∧
    (∀ e ∈ (mgrGCStep 10 1 m).2,
      e.2.sseConnsClosed = true ∧ e.2.doneClosed = false) ∧
    (∀ e ∈ (mgrClose m).2,
      e.2.sseConnsClosed = true ∧ e.2.doneClosed = false) ∧
    (mgrClose m).1.proxySessions = [] := by
  intro m
  exact C5_removal_runs_close_not_done m "s" (newSessLife 0) 10 1
    (by intro e he; simp only [m, List.mem_singleton] at he; subst he; rfl) (by rfl)

/-! ## Claim C10 — unknown-id events are silently dropped -/

/-- The `continue` at line 378: an id absent from `messageIds` leaves the
state untouched and emits nothing. -/
theorem handler_missing (mcpName ev : String) (data : McpData)
    (st : SessionSt) (i : Int)
    (hid : data.id = some i) (hmiss : List.lookup i st.messageIds = none) :
    subscribeSSEHandleData mcpName ev data st = (st, []) := by
  simp [subscribeSSEHandleData, hid, hmiss]

/-- Claim C10: an SSE event whose data carries an `id` that is not a key of
`messageIds` produces no outbound event and leaves the whole session state
— in particular `messageIds` and `mcpToolsMap` — unchanged. -/
theorem C10_unknown_id_dropped (mcpName ev : String) (data : McpData)
    (st : SessionSt) (i : Int)
    (hid : data.id = some i) (hmiss : List.lookup i st.messageIds = none) :
    subscribeSSEHandleData mcpName ev data st = (st, []) ∧
    (subscribeSSEHandleData mcpName ev data st).1.messageIds = st.messageIds ∧
    (subscribeSSEHandleData mcpName ev data st).1.mcpToolsMap = st.mcpToolsMap := by
  have h := handler_missing mcpName ev data st i hid hmiss
  exact ⟨h, by rw [h], by rw [h]⟩

/-- Witness for C10: a response id (5) the gateway never issued, against a
fresh session. -/
theorem C10_unknown_id_dropped_witness :
    let d : McpData := { id := some 5, jsonrpc := "2.0", tools := [],
                         serverInfo := none }
    subscribeSSEHandleData "x" "message" d newSessionSt = (newSessionSt, []) ∧
    (subscribeSSEHandleData "x" "message" d newSessionSt).1.messageIds =
      newSessionSt.messageIds ∧
    (subscribeSSEHandleData "x" "message" d newSessionSt).1.mcpToolsMap =
      newSessionSt.mcpToolsMap := by
  intro d
  exact C10_unknown_id_dropped "x" "message" d newSessionSt 5 rfl rfl

/-! ## Claim C2 — tools aggregation is not all-or-nothing (code bug) -/

/-- Claim C2 (code bug): the early `return` in the tools closure of
`SubscribeSSE` only exits the closure, not the reader loop, so the code
after it still forwards the event.  Concretely, with two backends awaiting
a `tools/list` broadcast (`waitToolsCount = 2`, gateway ids 100 → 7 for
backend x and 101 → 7 for backend y), the reply of backend x is forwarded to
the client immediately — unmerged and with its tool names unprefixed — and
the reply of backend y then yields the merged response: the client sees two
responses to one `tools/list`, the first of them a partial tool list. -/
theorem C2_partial_tools_forwarded :
    let st : SessionSt :=
      { messageIds := [(100, 7), (101, 7)], mcpToolsMap := [],
        waitToolsCount := 2, mcpMessageUrl := [("x", "ux"), ("y", "uy")] }
    let dx : McpData :=
      { id := some 100, jsonrpc := "2.0", tools := [⟨"t", ""⟩], serverInfo := none }
    let dy : McpData :=
      { id := some 101, jsonrpc := "2.0", tools := [⟨"t", ""⟩], serverInfo := none }
    let r1 := subscribeSSEHandleData "x" "message" dx st
    let r2 := subscribeSSEHandleData "y" "message" dy r1.1
    r1.2 = [("message",
      { id := some 7, jsonrpc := "2.0", tools := [⟨"t", ""⟩], serverInfo := none })] ∧
    r2.2 = [("message",
      { id := some 7, jsonrpc := "2.0",
        tools := [⟨"y_t", "t"⟩, ⟨"x_t", "t"⟩], serverInfo := none })] ∧
    (r1.2 ++ r2.2).length = 2 := by
  exact ⟨rfl, rfl, rfl⟩

/-! ## Claim C1 — ID round-trip -/

/-- When the id of the event is a live key of `messageIds` and the frame kind is
not `endpoint`, the reader removes the binding and forwards exactly one
event whose id is the recorded original id. -/
theorem handler_found (mcpName ev : String) (data : McpData) (st : SessionSt)
    (mid r : Int)
    (hid : data.id = some mid) (hfound : List.lookup mid st.messageIds = some r)
    (hev : ev ≠ "endpoint") :
    (subscribeSSEHandleData mcpName ev data st).1.messageIds =
      removeA mid st.messageIds ∧
    ∃ d, (subscribeSSEHandleData mcpName ev data st).2 = [(ev, d)] ∧
         d.id = some r := by
  simp only [subscribeSSEHandleData, hid, hfound]
  by_cases ht : data.tools.length > 0
  · by_cases hw : st.waitToolsCount - 1 > 0
    · simp [ht, hw, hev]
    · simp [ht, hw, hev]
  · by_cases hs : data.serverInfo.isSome
    · simp [ht, hs, hev]
    · simp [ht, hs, hev]

/-- Claim C1: a request with a non-null id sent via `sendToMcp` is recorded
under gateway id `now`; the first (non-endpoint) backend event carrying
that gateway id is forwarded exactly once with the id rewritten back to
the original client id, the `messageIds` entry is removed by that first
match, and any later event with the same gateway id is not forwarded.
(Response frames arrive as non-`endpoint` SSE events; `endpoint` frames
carry paths, not ids.) -/
theorem C1_id_round_trip (now orig : Int) (mcpName mcpName2 mcpName3 ev ev2 : String)
    (req : McpRequest) (st st1 : SessionSt) (req1 : McpRequest)
    (data data2 : McpData)
    (hid : req.id = some orig)
    (hsend : sendToMcp now mcpName req st = .ok (st1, req1))
    (hdata : data.id = some now) (hdata2 : data2.id = some now)
    (hev : ev ≠ "endpoint") :
    req1.id = some now ∧
    List.lookup now st1.messageIds = some orig ∧
    (∃ d, (subscribeSSEHandleData mcpName2 ev data st1).2 = [(ev, d)] ∧
          d.id = some orig) ∧
    List.lookup now (subscribeSSEHandleData mcpName2 ev data st1).1.messageIds = none ∧
    (subscribeSSEHandleData mcpName3 ev2 data2
        (subscribeSSEHandleData mcpName2 ev data st1).1).2 = [] := by
  simp only [sendToMcp, hid, generateMessageId] at hsend
  rcases hu : List.lookup mcpName st.mcpMessageUrl with _ | u
  · rw [hu] at hsend
    exact absurd hsend (by simp)
  · rw [hu] at hsend
    simp only [Except.ok.injEq, Prod.mk.injEq] at hsend
    obtain ⟨hst1, hreq1⟩ := hsend
    subst hst1
    subst hreq1
    have hlook : List.lookup now (insertA now orig st.messageIds) = some orig :=
      lookup_insertA_self now orig st.messageIds
    obtain ⟨hmid, d, hout, hdid⟩ :=
      handler_found mcpName2 ev data
        { st with messageIds := insertA now orig st.messageIds } now orig
        hdata hlook hev
    have hgone : List.lookup now
        (subscribeSSEHandleData mcpName2 ev data
          { st with messageIds := insertA now orig st.messageIds }).1.messageIds =
        none := by
      rw [hmid]
      exact lookup_removeA_self now _
    refine ⟨rfl, hlook, ⟨d, hout, hdid⟩, hgone, ?_⟩
    rw [handler_missing mcpName3 ev2 data2
      (subscribeSSEHandleData mcpName2 ev data
        { st with messageIds := insertA now orig st.messageIds }).1 now hdata2 hgone]

/-- Witness for C1: client id 7, gateway id 100, one backend `x`, a plain
response frame. -/
theorem C1_id_round_trip_witness :
    (∃ dd, (subscribeSSEHandleData "x" "message"
        { id := some 100, jsonrpc := "2.0", tools := [], serverInfo := none }
        { messageIds := [(100, 7)], mcpToolsMap := [], waitToolsCount := 0,
          mcpMessageUrl := [("x", "ux")] }).2 = [("message", dd)] ∧
      dd.id = some 7) ∧
    List.lookup 100 (subscribeSSEHandleData "x" "message"
        { id := some 100, jsonrpc := "2.0", tools := [], serverInfo := none }
        { messageIds := [(100, 7)], mcpToolsMap := [], waitToolsCount := 0,
          mcpMessageUrl := [("x", "ux")] }).1.messageIds = none := by
  have h := C1_id_round_trip 100 7 "x" "x" "x" "message" "message"
    { id := some 7, method := "ping", paramsName := none }
    { messageIds := [], mcpToolsMap := [], waitToolsCount := 0,
      mcpMessageUrl := [("x", "ux")] }
    { messageIds := [(100, 7)], mcpToolsMap := [], waitToolsCount := 0,
      mcpMessageUrl := [("x", "ux")] }
    { id := some 100, method := "ping", paramsName := none }
    { id := some 100, jsonrpc := "2.0", tools := [], serverInfo := none }
    { id := some 100, jsonrpc := "2.0", tools := [], serverInfo := none }
    rfl (by rfl) rfl rfl (by decide)
  exact ⟨h.2.2.1, h.2.2.2.1⟩

/-! ## Claim C4 — tools/call routing -/

/-- `sendToMcp` succeeds when the backend has a recorded message URL, and
it never changes `mcpMessageUrl`. -/
theorem sendToMcp_ok_of_url (now : Int) (n : String) (req : McpRequest)
    (st : SessionSt) (h : (List.lookup n st.mcpMessageUrl).isSome) :
    ∃ st2 req2, sendToMcp now n req st = .ok (st2, req2) ∧
      st2.mcpMessageUrl = st.mcpMessageUrl := by
  rcases hu : List.lookup n st.mcpMessageUrl with _ | u
  · rw [hu] at h
    exact absurd h (by simp)
  · cases hi : req.id with
    | none =>
      refine ⟨st, req, ?_, rfl⟩
      simp [sendToMcp, hi, hu]
    | some rid =>
      refine ⟨{ st with messageIds := insertA now rid st.messageIds },
        { req with id := some now }, ?_, rfl⟩
      simp [sendToMcp, hi, generateMessageId, hu]

theorem lookup_isSome_of_mem [BEq α] [LawfulBEq α] {l : List (α × β)}
    {e : α × β} (h : e ∈ l) : (List.lookup e.1 l).isSome := by
  induction l with
  | nil => exact absurd h (by simp)
  | cons p rest ih =>
    rw [List.lookup_cons]
    cases hk : (e.1 == p.1) with
    | true => simp
    | false =>
      rcases List.mem_cons.mp h with rfl | hmem
      · rw [beq_self_eq_true] at hk
        exact absurd hk (by simp)
      · exact ih hmem

/-- The broadcast fold of `SendMessage` POSTs to every backend of
`mcpMessageUrl`, in order. -/
theorem broadcast_fold_targets (now : Int) (method : String) (req : McpRequest)
    (l : List (String × String)) (st0 : SessionSt)
    (sent0 : List (String × McpRequest))
    (hl : ∀ e ∈ l, (List.lookup e.1 st0.mcpMessageUrl).isSome) :
    ((l.foldl (broadcastStep now method req) (st0, sent0)).2).map Prod.fst =
      sent0.map Prod.fst ++ l.map Prod.fst := by
  induction l generalizing st0 sent0 with
  | nil => simp
  | cons e rest ih =>
    obtain ⟨st2, req2, hok, hurl⟩ :=
      sendToMcp_ok_of_url now e.1 req st0 (hl e (List.mem_cons_self e rest))
    have hstep : broadcastStep now method req (st0, sent0) e =
        (if method == "tools/list" then
           { st2 with waitToolsCount := st2.waitToolsCount + 1 } else st2,
         sent0 ++ [(e.1, req2)]) := by
      simp [broadcastStep, hok]
    rw [List.foldl_cons, hstep]
    have hurl2 : (if method == "tools/list" then
        { st2 with waitToolsCount := st2.waitToolsCount + 1 } else st2).mcpMessageUrl =
        st0.mcpMessageUrl := by
      split
      · exact hurl
      · exact hurl
    have hl2 : ∀ e2 ∈ rest,
        (List.lookup e2.1 (if method == "tools/list" then
          { st2 with waitToolsCount := st2.waitToolsCount + 1 }
          else st2).mcpMessageUrl).isSome := by
      intro e2 he2
      rw [hurl2]
      exact hl e2 (List.mem_cons_of_mem e he2)
    rw [ih _ _ hl2]
    simp

/-- Claim C4 as stated is false: a `tools/call` whose `params.name` is
`"_x"` contains an underscore, yet the split head is the empty string, so
the request is broadcast to every backend (with `params.name` rewritten to
`"x"`) instead of being routed to the single backend named by the head. -/
theorem C4_counterexample_empty_head_broadcasts :
    let st : SessionSt :=
      { messageIds := [], mcpToolsMap := [], waitToolsCount := 0,
        mcpMessageUrl := [("a", "ua"), ("b", "ub")] }
    let req : McpRequest :=
      { id := none, method := "tools/call", paramsName := some "_x" }
    let req2 : McpRequest :=
      { id := none, method := "tools/call", paramsName := some "x" }
    sessionSendMessage 50 req st = .ok (st, [("a", req2), ("b", req2)]) ∧
    [("a", req2), ("b", req2)].map Prod.fst = ["a", "b"] ∧
    ["a", "b"] ≠ [""] := by
  exact ⟨rfl, rfl, by decide⟩

/-- Claim C4 amended: a `tools/call` whose `params.name` splits on the
first underscore into a non-empty head is sent to only that backend with
`params.name` rewritten to the joined tail; when the head is empty the
(rewritten) request falls through to the broadcast path; a `tools/call`
without an underscore and every non-`tools/call` request is broadcast
unchanged to every backend in `mcpMessageUrl`. -/
theorem C4_tools_call_routing (now : Int) (st : SessionSt) (req : McpRequest) :
    (∀ name n0 n1 rest, req.method = "tools/call" → req.paramsName = some name →
      goSplit '_' name = n0 :: n1 :: rest →
      ((n0 ≠ "" →
        sessionSendMessage now req st =
          (match sendToMcp now n0
              { req with paramsName := some (goJoin '_' (n1 :: rest)) } st with
           | .error e => .error e
           | .ok (st2, req2) => .ok (st2, [(n0, req2)]))) ∧
       (n0 = "" →
        sessionSendMessage now req st =
          .ok (st.mcpMessageUrl.foldl
            (broadcastStep now req.method
              { req with paramsName := some (goJoin '_' (n1 :: rest)) }) (st, [])) ∧
        ((st.mcpMessageUrl.foldl
            (broadcastStep now req.method
              { req with paramsName := some (goJoin '_' (n1 :: rest)) })
            (st, [])).2).map Prod.fst = st.mcpMessageUrl.map Prod.fst))) ∧
    (∀ name n0, req.method = "tools/call" → req.paramsName = some name →
      goSplit '_' name = [n0] →
      sessionSendMessage now req st =
        .ok (st.mcpMessageUrl.foldl (broadcastStep now req.method req) (st, [])) ∧
      ((st.mcpMessageUrl.foldl (broadcastStep now req.method req)
          (st, [])).2).map Prod.fst = st.mcpMessageUrl.map Prod.fst) ∧
    (req.method ≠ "tools/call" →
      sessionSendMessage now req st =
        .ok (st.mcpMessageUrl.foldl (broadcastStep now req.method req) (st, [])) ∧
      ((st.mcpMessageUrl.foldl (broadcastStep now req.method req)
          (st, [])).2).map Prod.fst = st.mcpMessageUrl.map Prod.fst) := by
  have htargets : ∀ r : McpRequest,
      ((st.mcpMessageUrl.foldl (broadcastStep now req.method r)
          (st, [])).2).map Prod.fst = st.mcpMessageUrl.map Prod.fst := by
    intro r
    have := broadcast_fold_targets now req.method r st.mcpMessageUrl st []
      (fun e he => lookup_isSome_of_mem he)
    simpa using this
  refine ⟨?_, ?_, ?_⟩
  · intro name n0 n1 rest hm hp hsplit
    constructor
    · intro hn0
      have hb : (n0 == "") = false := by simp [hn0]
      simp only [sessionSendMessage, routeOf, hm, hp, hsplit, beq_self_eq_true,
        if_true, hb, Bool.false_eq_true, if_false]
    · intro hn0
      subst hn0
      refine ⟨?_, htargets _⟩
      simp only [sessionSendMessage, routeOf, hm, hp, hsplit, beq_self_eq_true,
        if_true]
  · intro name n0 hm hp hsplit
    refine ⟨?_, htargets _⟩
    simp only [sessionSendMessage, routeOf, hm, hp, hsplit, beq_self_eq_true,
      if_true]
  · intro hm
    have hb : (req.method == "tools/call") = false := by simp [hm]
    refine ⟨?_, htargets _⟩
    simp only [sessionSendMessage, routeOf, hb, Bool.false_eq_true, if_false,
      beq_self_eq_true, if_true]

/-- Witness for C4: two backends `a`, `b`; the four routing shapes at
concrete requests (`a_t_u`, `_x`, `x`, and a `ping`). -/
theorem C4_tools_call_routing_witness :
    let st : SessionSt :=
      { messageIds := [], mcpToolsMap := [], waitToolsCount := 0,
        mcpMessageUrl := [("a", "ua"), ("b", "ub")] }
    let call : String → McpRequest := fun nm =>
      { id := some 9, method := "tools/call", paramsName := some nm }
    let png : McpRequest := { id := some 9, method := "ping", paramsName := none }
    (sessionSendMessage 50 (call "a_t_u") st =
      (match sendToMcp 50 "a"
          { call "a_t_u" with paramsName := some (goJoin '_' ["t", "u"]) } st with
       | .error e => .error e
       | .ok (st2, req2) => .ok (st2, [("a", req2)]))) ∧
    (sessionSendMessage 50 (call "_x") st =
      .ok (st.mcpMessageUrl.foldl
        (broadcastStep 50 "tools/call"
          { call "_x" with paramsName := some (goJoin '_' ["x"]) }) (st, []))) ∧
    (sessionSendMessage 50 (call "x") st =
      .ok (st.mcpMessageUrl.foldl (broadcastStep 50 "tools/call" (call "x")) (st, []))) ∧
    (sessionSendMessage 50 png st =
      .ok (st.mcpMessageUrl.foldl (broadcastStep 50 "ping" png) (st, []))) := by
  intro st call png
  refine ⟨?_, ?_, ?_, ?_⟩
  · exact ((C4_tools_call_routing 50 st (call "a_t_u")).1 "a_t_u" "a" "t" ["u"]
      rfl rfl (by decide)).1 (by decide)
  · exact (((C4_tools_call_routing 50 st (call "_x")).1 "_x" "" "x" []
      rfl rfl (by decide)).2 rfl).1
  · exact ((C4_tools_call_routing 50 st (call "x")).2.1 "x" "x" rfl rfl (by decide)).1
  · exact ((C4_tools_call_routing 50 st png).2.2 (by decide)).1

/-! ## Claim C3 — `POST /message` does not run the session routing logic -/

/-- Claim C3 as stated is false: `handleGlobalMessage` forwards the raw
body to every registered MCP service.  For a `tools/call` body whose tool
name is prefixed `x_`, backend `y` also receives the POST, and every
posted body is byte-identical to the original (no id is rewritten),
contradicting the claimed id rewrite and single-backend routing. -/
theorem C3_counterexample_raw_broadcast :
    let body := "\x7b\"jsonrpc\":\"2.0\",\"id\":9,\"method\":\"tools/call\",\"params\":\x7b\"name\":\"x_t\"\x7d\x7d"
    handleGlobalMessage "s1" [("s1", ())] ["x", "y"] body =
      .ok [("x", body, "send"), ("y", body, "send")] [("x", body), ("y", body)] ∧
    ("y", body) ∈ [("x", body), ("y", body)] ∧
    "y" ≠ "x" ∧
    (∀ p ∈ [("x", body), ("y", body)], p.2 = body) := by
  exact ⟨rfl, by simp, by decide, by simp⟩

/-- Claim C3 amended: for every `POST /message?sessionId=...` whose session
exists, the handler forwards the body unchanged to every registered MCP
service and records one `send` entry per service in the session history;
`Session.SendMessage` (id rewriting, prefix routing) is not invoked on
this path. -/
theorem C3_handleGlobalMessage_forwards_raw (sessionId : String)
    (sessions : List (String × Unit)) (services : List String) (body : String)
    (hs : sessionId ≠ "") (hfound : (List.lookup sessionId sessions).isSome) :
    handleGlobalMessage sessionId sessions services body =
      .ok (services.map fun n => (n, body, "send"))
          (services.map fun n => (n, body)) ∧
    (services.map fun n => (n, body)).map Prod.fst = services ∧
    ∀ p ∈ services.map (fun n => (n, body)), p.2 = body := by
  have hb : (sessionId == "") = false := by simp [hs]
  rcases hu : List.lookup sessionId sessions with _ | u
  · rw [hu] at hfound
    exact absurd hfound (by simp)
  · refine ⟨?_, ?_, by simp⟩
    · simp [handleGlobalMessage, hb, hu]
    · rw [List.map_map]
      exact List.map_id services |>.symm ▸ (by simp [Function.comp])

/-- Witness for the amended statement of C3: session `s1`, services `x`, `y`. -/
theorem C3_handleGlobalMessage_forwards_raw_witness :
    handleGlobalMessage "s1" [("s1", ())] ["x", "y"] "body" =
      .ok ((["x", "y"]).map fun n => (n, "body", "send"))
          ((["x", "y"]).map fun n => (n, "body")) ∧
    ((["x", "y"]).map fun n => (n, "body")).map Prod.fst = ["x", "y"] ∧
    ∀ p ∈ (["x", "y"]).map (fun n => (n, ("body" : String))), p.2 = "body" := by
  exact C3_handleGlobalMessage_forwards_raw "s1" [("s1", ())] ["x", "y"] "body"
    (by decide) (by decide)

end McpGateway
